import Mathlib

/-!
Shallow embedding of `resultextractor.py` (VTU Result Extractor).

The core of the program is `extract_data_from_pdf`: per page it resolves a
student identity from the page text with two regular expressions, walks the
detected tables, qualifies rows as result rows, repairs merged mark cells,
and emits one record per qualifying row; the driver loop concatenates the
per-document record lists.

Strings are modelled as Lean `String`/`List Char`.  Python's whitespace
class (`str.strip`, `str.split`, regex `\s`) is modelled by its ASCII
portion; `str.isdigit` by the ASCII digits.  The two regular expressions
`University Seat Number\s*[:,-]?\s*([0-9A-Z]+)` and
`Student Name\s*[:,-]?\s*([A-Za-z\s]+)` are executed by a small
backtracking matcher (`tryStar`/`tryOpt`/`capPlus`) with exactly the
greedy leftmost-search semantics of Python's `re.search`.
-/

namespace ResultExtractor

/-- ASCII whitespace as Python's `str.strip` / `str.split` / regex `\s` see it. -/
def isPySpace (c : Char) : Bool :=
  c = ' ' || c = '\t' || c = '\n' || c = '\r' || c = '\x0b' || c = '\x0c'

/-- The character class `[0-9A-Z]` (also `[A-Z0-9]` of the row predicate). -/
def isUsnChar (c : Char) : Bool :=
  ('0' ≤ c && c ≤ '9') || ('A' ≤ c && c ≤ 'Z')

/-- The separator class `[:,-]` of both identity regexes. -/
def isSepChar (c : Char) : Bool :=
  c = ':' || c = ',' || c = '-'

/-- The capture class `[A-Za-z\s]` of the name regex. -/
def isNameCapChar (c : Char) : Bool :=
  ('A' ≤ c && c ≤ 'Z') || ('a' ≤ c && c ≤ 'z') || isPySpace c

/-- Python `str.strip()` on a character list. -/
def pyStripL (cs : List Char) : List Char :=
  ((cs.dropWhile isPySpace).reverse.dropWhile isPySpace).reverse

/-- Python `str.strip()`. -/
def pyStrip (s : String) : String := ⟨pyStripL s.toList⟩

/-- Python `str.replace('\n', ' ')` on a character list. -/
def pyReplaceNL (cs : List Char) : List Char :=
  cs.map fun c => if c = '\n' then ' ' else c

/-- One cell of `clean_row`:
`str(item).replace('\n', ' ').strip() if item else ''` where a missing
(`None`) or empty cell is falsy. -/
def cleanCell : Option String → String
  | none => ""
  | some s => if s = "" then "" else ⟨pyStripL (pyReplaceNL s.toList)⟩

/-- Helper for `pySplit`: accumulates the current token reversed. -/
def pySplitAux : List Char → List Char → List String
  | [], [] => []
  | [], acc => [⟨acc.reverse⟩]
  | c :: rest, acc =>
    if isPySpace c then
      match acc with
      | [] => pySplitAux rest []
      | _ => ⟨acc.reverse⟩ :: pySplitAux rest []
    else pySplitAux rest (c :: acc)

/-- Python `str.split()` (no argument): split on whitespace runs, no empty
tokens. -/
def pySplit (s : String) : List String := pySplitAux s.toList []

/-- Python `str.isdigit()` (ASCII): nonempty and all digits. -/
def pyIsDigit (s : String) : Bool :=
  !s.isEmpty && s.toList.all Char.isDigit

/-- Greedy `cls*` with backtracking: consume as many `cls` characters as
possible, then hand the remainder to the continuation `k`, giving characters
back one at a time if `k` fails — exactly a regex engine's preference order
for `\s*`. -/
def tryStar (cls : Char → Bool) (k : List Char → Option (List Char)) :
    List Char → Option (List Char)
  | [] => k []
  | c :: rest =>
    if cls c then
      match tryStar cls k rest with
      | some r => some r
      | none => k (c :: rest)
    else k (c :: rest)

/-- Greedy `cls?` with backtracking: prefer consuming one `cls` character,
fall back to consuming none. -/
def tryOpt (cls : Char → Bool) (k : List Char → Option (List Char)) :
    List Char → Option (List Char)
  | [] => k []
  | c :: rest =>
    if cls c then
      match k rest with
      | some r => some r
      | none => k (c :: rest)
    else k (c :: rest)

/-- `(cls+)` at the end of the pattern: the capture is the maximal run, and
the match fails when it is empty. -/
def capPlus (cls : Char → Bool) (cs : List Char) : Option (List Char) :=
  let cap := cs.takeWhile cls
  if cap.isEmpty then none else some cap

/-- The part of both identity regexes after the label:
`\s*[:,-]?\s*(cls+)`, returning the captured group. -/
def matchTail (cls : Char → Bool) : List Char → Option (List Char) :=
  tryStar isPySpace (tryOpt isSepChar (tryStar isPySpace (capPlus cls)))

/-- Boolean list-prefix test (our own, to keep the development
self-contained). -/
def isPre : List Char → List Char → Bool
  | [], _ => true
  | _ :: _, [] => false
  | a :: as, b :: bs => a = b && isPre as bs

/-- Try the whole pattern `label\s*[:,-]?\s*(cls+)` anchored at the start of
`cs`. -/
def matchAt (label : List Char) (cls : Char → Bool) (cs : List Char) :
    Option (List Char) :=
  if isPre label cs then matchTail cls (cs.drop label.length) else none

/-- Python `re.search`: try the pattern at every position left to right and
return the first match's captured group. -/
def reSearch (label : List Char) (cls : Char → Bool) : List Char → Option (List Char)
  | [] => matchAt label cls []
  | c :: rest =>
    match matchAt label cls (c :: rest) with
    | some cap => some cap
    | none => reSearch label cls rest

/-- The literal label of `usn_pattern`. -/
def usnLabel : List Char := "University Seat Number".toList

/-- The literal label of `name_pattern`. -/
def nameLabel : List Char := "Student Name".toList

/-- `match.group(1).strip() if match else "Unknown"`. -/
def resolveWith (label : List Char) (cls : Char → Bool) (text : String) : String :=
  match reSearch label cls text.toList with
  | some cap => pyStrip ⟨cap⟩
  | none => "Unknown"

/-- `usn = usn_match.group(1).strip() if usn_match else "Unknown"`. -/
def resolveUSN (text : String) : String := resolveWith usnLabel isUsnChar text

/-- `name = name_match.group(1).strip() if name_match else "Unknown"`. -/
def resolveName (text : String) : String := resolveWith nameLabel isNameCapChar text

/-- One extracted result row (the dict appended to `extracted_data`). -/
structure ResultRecord where
  usn : String
  studentName : String
  subjectCode : String
  subjectName : String
  internalMark : String
  externalMark : String
  totalMark : String
  result : String
  sourceFile : String
deriving DecidableEq

/-- Truthiness of `re.match(r'^[A-Z0-9]{5,}', s)`: at least five characters
of `[A-Z0-9]` at the very start of `s`. -/
def reMatchSubjectCode (s : String) : Bool :=
  5 ≤ s.toList.length && (s.toList.take 5).all isUsnChar

/-- The merged-marks fix: if `external` is falsy and `internal` holds a
space, split `internal` on whitespace; when that yields exactly two
all-digit tokens, they become the new `internal`/`external` pair. -/
def mergeFix (internal external : String) : String × String :=
  if external = "" ∧ ' ' ∈ internal.toList then
    match pySplit internal with
    | [a, b] => if pyIsDigit a && pyIsDigit b then (a, b) else (internal, external)
    | _ => (internal, external)
  else (internal, external)

/-- The per-row body of `extract_data_from_pdf`: clean the cells, test the
qualification predicate (`len(clean_row) >= 6 and re.match(...)`), apply the
merged-marks fix, and build the record appended to `extracted_data`. -/
def processRow (usn name sourceFile : String) (row : List (Option String)) :
    Option ResultRecord :=
  if 6 ≤ (row.map cleanCell).length ∧ reMatchSubjectCode ((row.map cleanCell).getD 0 "") then
    some { usn := usn, studentName := name,
           subjectCode := (row.map cleanCell).getD 0 "",
           subjectName := (row.map cleanCell).getD 1 "",
           internalMark := (mergeFix ((row.map cleanCell).getD 2 "") ((row.map cleanCell).getD 3 "")).1,
           externalMark := (mergeFix ((row.map cleanCell).getD 2 "") ((row.map cleanCell).getD 3 "")).2,
           totalMark := (row.map cleanCell).getD 4 "",
           result := (row.map cleanCell).getD 5 "",
           sourceFile := sourceFile }
  else none

/-- The inner `for row in table` loop. -/
def extractTable (usn name sourceFile : String)
    (table : List (List (Option String))) : List ResultRecord :=
  table.filterMap (processRow usn name sourceFile)

/-- The page abstraction the core consumes: raw text plus decoded tables. -/
structure Page where
  text : String
  tables : List (List (List (Option String)))
deriving DecidableEq

/-- The per-page body: resolve the identity from this page's text, then
extract every table of the page in order. -/
def extractPage (sourceFile : String) (page : Page) : List ResultRecord :=
  let usn := resolveUSN page.text
  let name := resolveName page.text
  (page.tables.map (extractTable usn name sourceFile)).flatten

/-- `extract_data_from_pdf` on an already-decoded document: all pages in
order. -/
def extract_data_from_pdf (fileName : String) (pages : List Page) : List ResultRecord :=
  (pages.map (extractPage fileName)).flatten

/-- `extract_data_from_pdf` with the `try/except` wrapper: a document whose
decoding fails contributes `[]` (the `except` branch returns `[]`). -/
def extractDoc (fileName : String) (decoded : Except String (List Page)) :
    List ResultRecord :=
  match decoded with
  | .error _ => []
  | .ok pages => extract_data_from_pdf fileName pages

/-- The driver loop: `all_results = []` then `all_results.extend(data)` per
uploaded file. -/
def processFiles (docs : List (String × Except String (List Page))) :
    List ResultRecord :=
  docs.foldl (fun acc d => acc ++ extractDoc d.1 d.2) []

/-- The aggregation the driver performs on per-document batches. -/
def aggregate (batches : List (List ResultRecord)) : List ResultRecord :=
  batches.foldl (fun acc b => acc ++ b) []

/-- `label` occurs (as a contiguous substring) somewhere in the text. -/
def containsLabel (label : List Char) : List Char → Bool
  | [] => isPre label []
  | c :: rest => isPre label (c :: rest) || containsLabel label rest

/-- The precondition of the merged-marks repair, as the code tests it:
the external cell is empty, the internal cell holds a space character
(U+0020), and splitting the internal cell on whitespace yields exactly two
all-digit tokens. -/
def mergeRepairApplies (internal external : String) : Prop :=
  external = "" ∧ ' ' ∈ internal.toList ∧
    ∃ a b, pySplit internal = [a, b] ∧ pyIsDigit a ∧ pyIsDigit b

/-! ## Helper lemmas -/

theorem isPre_iff (l z : List Char) : isPre l z = true ↔ z.take l.length = l := by
  induction l generalizing z with
  | nil => simp [isPre]
  | cons a as ih =>
    cases z with
    | nil => simp [isPre]
    | cons b bs =>
      simp only [isPre, Bool.and_eq_true, decide_eq_true_eq, ih, List.length_cons,
        List.take_succ_cons, List.cons.injEq]
      exact and_congr_left fun _ => eq_comm

theorem reSearch_of_matchAt (label : List Char) (cls : Char → Bool) (cs cap : List Char)
    (h : matchAt label cls cs = some cap) : reSearch label cls cs = some cap := by
  cases cs with
  | nil => simpa [reSearch] using h
  | cons c rest => simp [reSearch, h]

theorem reSearch_none (label : List Char) (cls : Char → Bool) (cs : List Char)
    (h : containsLabel label cs = false) : reSearch label cls cs = none := by
  induction cs with
  | nil =>
    simp only [containsLabel] at h
    simp [reSearch, matchAt, h]
  | cons c rest ih =>
    simp only [containsLabel, Bool.or_eq_false_iff] at h
    simp [reSearch, matchAt, h.1, ih h.2]

theorem dropWhile_idem' (p : Char → Bool) (l : List Char) :
    (l.dropWhile p).dropWhile p = l.dropWhile p := by
  induction l with
  | nil => rfl
  | cons a l ih =>
    by_cases h : p a
    · simpa [List.dropWhile_cons, h] using ih
    · simp [List.dropWhile_cons, h]

theorem dropWhile_head_false (p : Char → Bool) (l : List Char) (x : Char) (xs : List Char)
    (h : l.dropWhile p = x :: xs) : p x = false := by
  induction l with
  | nil => simp [List.dropWhile] at h
  | cons a l ih =>
    by_cases ha : p a
    · rw [List.dropWhile_cons, if_pos ha] at h
      exact ih h
    · rw [List.dropWhile_cons, if_neg ha] at h
      cases h
      simpa using ha

theorem length_dropWhile_le' (p : Char → Bool) (l : List Char) :
    (l.dropWhile p).length ≤ l.length := by
  induction l with
  | nil => simp
  | cons a l ih =>
    by_cases h : p a
    · rw [List.dropWhile_cons, if_pos h]
      exact Nat.le_trans ih (Nat.le_succ _)
    · rw [List.dropWhile_cons, if_neg h]

theorem rev_drop_decomp (p : Char → Bool) (l : List Char) :
    l = (l.reverse.dropWhile p).reverse ++ (l.reverse.takeWhile p).reverse := by
  have h1 : l.reverse.takeWhile p ++ l.reverse.dropWhile p = l.reverse :=
    List.takeWhile_append_dropWhile p l.reverse
  have h2 := congrArg List.reverse h1
  rw [List.reverse_append, List.reverse_reverse] at h2
  exact h2.symm

theorem stripL_out_drop (p : Char → Bool) (d : List Char) (hdd : d.dropWhile p = d) :
    ((d.reverse.dropWhile p).reverse).dropWhile p = (d.reverse.dropWhile p).reverse := by
  rcases ho : (d.reverse.dropWhile p).reverse with _ | ⟨x, xs⟩
  · rfl
  · have hdecomp := rev_drop_decomp p d
    rw [ho] at hdecomp
    have hx : p x = false := by
      by_contra hxx
      rw [Bool.not_eq_false] at hxx
      have h3 : d.dropWhile p = (xs ++ (d.reverse.takeWhile p).reverse).dropWhile p := by
        conv_lhs => rw [hdecomp]
        simp [List.dropWhile_cons, hxx]
      have h4 := congrArg List.length (hdd.symm.trans h3)
      have h5 := length_dropWhile_le' p (xs ++ (d.reverse.takeWhile p).reverse)
      have hlen := congrArg List.length hdecomp
      simp only [List.cons_append, List.length_cons, List.length_append] at h5 hlen
      omega
    rw [List.dropWhile_cons, if_neg (by simp [hx])]

theorem pyStripL_idem (cs : List Char) : pyStripL (pyStripL cs) = pyStripL cs := by
  unfold pyStripL
  have hdd : (cs.dropWhile isPySpace).dropWhile isPySpace = cs.dropWhile isPySpace :=
    dropWhile_idem' _ _
  rw [stripL_out_drop isPySpace _ hdd, List.reverse_reverse, dropWhile_idem']

theorem pyStrip_idem (s : String) : pyStrip (pyStrip s) = pyStrip s := by
  unfold pyStrip
  exact congrArg String.mk (pyStripL_idem s.toList)

theorem processRow_eq_some {u n f : String} {row : List (Option String)} {rec : ResultRecord}
    (h : processRow u n f row = some rec) :
    rec.usn = u ∧ rec.studentName = n ∧
    rec.subjectCode = (row.map cleanCell).getD 0 "" ∧
    rec.subjectName = (row.map cleanCell).getD 1 "" ∧
    (rec.internalMark, rec.externalMark) =
      mergeFix ((row.map cleanCell).getD 2 "") ((row.map cleanCell).getD 3 "") ∧
    rec.totalMark = (row.map cleanCell).getD 4 "" ∧
    rec.result = (row.map cleanCell).getD 5 "" ∧
    rec.sourceFile = f := by
  unfold processRow at h
  split at h
  · cases h
    exact ⟨rfl, rfl, rfl, rfl, rfl, rfl, rfl, rfl⟩
  · cases h

theorem reMatchSubjectCode_iff (s : String) :
    reMatchSubjectCode s = true ↔
      5 ≤ s.toList.length ∧ ∀ c ∈ s.toList.take 5, isUsnChar c := by
  simp [reMatchSubjectCode, List.all_eq_true]

theorem mergeFix_spec (internal external : String) :
    (mergeRepairApplies internal external →
      mergeFix internal external =
        ((pySplit internal).getD 0 "", (pySplit internal).getD 1 "")) ∧
    (¬ mergeRepairApplies internal external →
      mergeFix internal external = (internal, external)) := by
  by_cases hbase : external = "" ∧ ' ' ∈ internal.toList
  · rcases hsp : pySplit internal with _ | ⟨A, _ | ⟨B, _ | ⟨C, tl⟩⟩⟩
    · refine ⟨fun happ => ?_, fun _ => ?_⟩
      · rcases happ.2.2 with ⟨a, b, hab, -, -⟩
        rw [hsp] at hab; cases hab
      · unfold mergeFix; rw [if_pos hbase, hsp]
    · refine ⟨fun happ => ?_, fun _ => ?_⟩
      · rcases happ.2.2 with ⟨a, b, hab, -, -⟩
        rw [hsp] at hab; cases hab
      · unfold mergeFix; rw [if_pos hbase, hsp]
    · by_cases hdig : (pyIsDigit A && pyIsDigit B) = true
      · refine ⟨fun _ => ?_, fun hnot => ?_⟩
        · unfold mergeFix
          rw [if_pos hbase, hsp]
          change (if (pyIsDigit A && pyIsDigit B) = true then (A, B)
            else (internal, external)) = _
          rw [if_pos hdig]
          rfl
        · have hAB := hdig
          rw [Bool.and_eq_true] at hAB
          exact absurd ⟨hbase.1, hbase.2, A, B, hsp, hAB.1, hAB.2⟩ hnot
      · refine ⟨fun happ => ?_, fun _ => ?_⟩
        · rcases happ.2.2 with ⟨a, b, hab, ha, hb⟩
          rw [hsp] at hab
          cases hab
          exact absurd (by simp [ha, hb]) hdig
        · unfold mergeFix
          rw [if_pos hbase, hsp]
          change (if (pyIsDigit A && pyIsDigit B) = true then (A, B)
            else (internal, external)) = _
          rw [if_neg hdig]
    · refine ⟨fun happ => ?_, fun _ => ?_⟩
      · rcases happ.2.2 with ⟨a, b, hab, -, -⟩
        rw [hsp] at hab; cases hab
      · unfold mergeFix; rw [if_pos hbase, hsp]
  · refine ⟨fun happ => ?_, fun _ => ?_⟩
    · exact absurd ⟨happ.1, happ.2.1⟩ hbase
    · unfold mergeFix; rw [if_neg hbase]

theorem take_isPre (label xs ys : List Char) (hx : xs ≠ [])
    (h : isPre label (xs ++ ys) = true) :
    isPre label (xs ++ ys.take (label.length - 1)) = true := by
  rw [isPre_iff] at h ⊢
  rw [List.take_append_eq_append_take] at h ⊢
  rw [List.take_take]
  have h1 : 1 ≤ xs.length := List.length_pos.mpr hx
  have h2 : min (label.length - xs.length) (label.length - 1) =
      label.length - xs.length :=
    Nat.min_eq_left (Nat.sub_le_sub_left h1 label.length)
  rw [h2]
  exact h

theorem search_skip (label : List Char) (cls : Char → Bool) (a rest : List Char)
    (h : containsLabel label (a ++ rest.take (label.length - 1)) = false) :
    reSearch label cls (a ++ rest) = reSearch label cls rest := by
  induction a with
  | nil => simp
  | cons x a ih =>
    simp only [List.cons_append, containsLabel, Bool.or_eq_false_iff] at h
    have hma : matchAt label cls (x :: (a ++ rest)) = none := by
      unfold matchAt
      rw [if_neg]
      intro hpre
      have hpre' := take_isPre label (x :: a) rest (by simp) (by simpa using hpre)
      simp only [List.cons_append] at hpre'
      have hfalse : isPre label (x :: (a ++ rest.take (label.length - 1))) = false := h.1
      exact Bool.noConfusion (hpre'.symm.trans hfalse)
    have hstep : reSearch label cls ((x :: a) ++ rest) = reSearch label cls (a ++ rest) := by
      show (match matchAt label cls (x :: (a ++ rest)) with
            | some cap => some cap
            | none => reSearch label cls (a ++ rest)) = reSearch label cls (a ++ rest)
      rw [hma]
    rw [List.cons_append] at hstep ⊢
    rw [hstep]
    exact ih h.2

/-- `l.foldl (fun acc d => acc ++ g d) acc` peels its accumulator off the
front. -/
theorem foldl_append_accum {β : Type} (g : β → List ResultRecord) (l : List β)
    (acc : List ResultRecord) :
    l.foldl (fun a d => a ++ g d) acc = acc ++ l.foldl (fun a d => a ++ g d) [] := by
  induction l generalizing acc with
  | nil => simp
  | cons x xs ih =>
    simp only [List.foldl_cons, List.nil_append]
    rw [ih (acc ++ g x), ih (g x), List.append_assoc]

theorem processFiles_append (xs ys : List (String × Except String (List Page))) :
    processFiles (xs ++ ys) = processFiles xs ++ processFiles ys := by
  unfold processFiles
  rw [List.foldl_append, foldl_append_accum]

theorem aggregate_flatten (batches : List (List ResultRecord)) :
    aggregate batches = batches.flatten := by
  induction batches with
  | nil => rfl
  | cons b bs ih =>
    unfold aggregate at ih ⊢
    rw [List.foldl_cons, foldl_append_accum, List.nil_append, ih, List.flatten_cons]

theorem extractTable_mem {u n f : String} {table : List (List (Option String))}
    {rec : ResultRecord} (h : rec ∈ extractTable u n f table) :
    rec.usn = u ∧ rec.studentName = n ∧ rec.sourceFile = f := by
  rcases List.mem_filterMap.mp h with ⟨row, -, hrow⟩
  obtain ⟨h1, h2, -, -, -, -, -, h8⟩ := processRow_eq_some hrow
  exact ⟨h1, h2, h8⟩

theorem extractPage_mem {f : String} {p : Page} {rec : ResultRecord}
    (h : rec ∈ extractPage f p) :
    rec.usn = resolveUSN p.text ∧ rec.studentName = resolveName p.text ∧
    rec.sourceFile = f := by
  unfold extractPage at h
  rcases List.mem_flatten.mp h with ⟨l, hl, hrec⟩
  rcases List.mem_map.mp hl with ⟨table, -, rfl⟩
  exact extractTable_mem hrec

/-! ## Claims -/

/-- A row whose internal cell holds a tab, not a space, between two digit
tokens. -/
def c1TabRow : List (Option String) :=
  [some "ABC12", some "Subject", some "25\t40", some "", some "65", some "P"]

/-- Claim C1, counterexample: the claim's trigger — external cell empty,
internal cell containing *a whitespace character*, whitespace-split giving
exactly two all-digit tokens — is met by the internal cell "25\t40" (a tab),
yet the produced record keeps internalMark = "25\t40" and externalMark = ""
unmodified: the code tests specifically for a space character `' '`, not for
arbitrary whitespace. -/
theorem merge_repair_whitespace_cex :
    (c1TabRow.map cleanCell).getD 3 "" = "" ∧
    ((c1TabRow.map cleanCell).getD 2 "").toList.any (fun c => isPySpace c) = true ∧
    pySplit ((c1TabRow.map cleanCell).getD 2 "") = ["25", "40"] ∧
    pyIsDigit "25" = true ∧ pyIsDigit "40" = true ∧
    Option.map (fun r => (r.internalMark, r.externalMark))
      (processRow "U" "N" "F" c1TabRow) = some ("25\t40", "") := by
  decide

/-- Claim C1 (amended: the repair fires when the internal cell contains a
*space character U+0020*, not any whitespace character): for every qualifying
row, if the normalized externalMark cell is empty, the internalMark cell
contains a space, and splitting internalMark on whitespace yields exactly two
all-digit tokens, the record gets internalMark = token[0] and
externalMark = token[1]; in every other case both cells pass through
unmodified. -/
theorem merge_repair_space_only (u n f : String) (row : List (Option String))
    (rec : ResultRecord) (h : processRow u n f row = some rec) :
    (mergeRepairApplies ((row.map cleanCell).getD 2 "") ((row.map cleanCell).getD 3 "") →
      rec.internalMark = (pySplit ((row.map cleanCell).getD 2 "")).getD 0 "" ∧
      rec.externalMark = (pySplit ((row.map cleanCell).getD 2 "")).getD 1 "") ∧
    (¬ mergeRepairApplies ((row.map cleanCell).getD 2 "") ((row.map cleanCell).getD 3 "") →
      rec.internalMark = (row.map cleanCell).getD 2 "" ∧
      rec.externalMark = (row.map cleanCell).getD 3 "") := by
  obtain ⟨-, -, -, -, hie, -, -, -⟩ := processRow_eq_some h
  have hfst := congrArg Prod.fst hie
  have hsnd := congrArg Prod.snd hie
  constructor
  · intro happ
    rw [(mergeFix_spec _ _).1 happ] at hfst hsnd
    exact ⟨hfst, hsnd⟩
  · intro hnot
    rw [(mergeFix_spec _ _).2 hnot] at hfst hsnd
    exact ⟨hfst, hsnd⟩

/-- A row exhibiting the repaired merged-marks artifact. -/
def c1SpaceRow : List (Option String) :=
  [some "BMATE201", some "Maths", some "25 40", some "", some "65", some "P"]

/-- The record the code produces for `c1SpaceRow`. -/
def c1SpaceRec : ResultRecord :=
  ⟨"U", "N", "BMATE201", "Maths", "25", "40", "65", "P", "F"⟩

/-- Witness for C1's amended theorem at a concrete repaired row. -/
theorem merge_repair_space_only_witness :
    c1SpaceRec.internalMark = (pySplit ((c1SpaceRow.map cleanCell).getD 2 "")).getD 0 "" ∧
    c1SpaceRec.externalMark = (pySplit ((c1SpaceRow.map cleanCell).getD 2 "")).getD 1 "" :=
  (merge_repair_space_only "U" "N" "F" c1SpaceRow c1SpaceRec (by decide)).1
    ⟨by decide, by decide, "25", "40", by decide, by decide, by decide⟩

/-- Claim C2: a raw table row yields a record if and only if, after cell
normalization, it has at least 6 cells and its first cell starts with a run
of at least five characters drawn from uppercase letters and digits (a
prefix match; later characters are ignored); a failing row yields no record
and the computation is total (no error is raised). -/
theorem row_qualification_iff (u n f : String) (row : List (Option String)) :
    (∃ rec, processRow u n f row = some rec) ↔
      6 ≤ (row.map cleanCell).length ∧
      5 ≤ ((row.map cleanCell).getD 0 "").toList.length ∧
      ∀ c ∈ ((row.map cleanCell).getD 0 "").toList.take 5, isUsnChar c := by
  unfold processRow
  constructor
  · rintro ⟨rec, h⟩
    split at h
    · next hc => exact ⟨hc.1, (reMatchSubjectCode_iff _).mp hc.2⟩
    · cases h
  · rintro ⟨h1, h2⟩
    rw [if_pos ⟨h1, (reMatchSubjectCode_iff _).mpr h2⟩]
    exact ⟨_, rfl⟩

/-- Claim C3: each qualifying row produces exactly one record whose first six
fields come positionally from cells 0–5 (internal/external through the
merged-marks fix on cells 2–3), carrying the resolved identity and the given
source file; cells beyond index 5 are ignored; and the output order is rows
within a table, tables within a page, pages within a document. -/
theorem record_fields_and_order (u n f : String) (row : List (Option String))
    (rec : ResultRecord) (h : processRow u n f row = some rec) :
    (rec.usn = u ∧ rec.studentName = n ∧ rec.sourceFile = f ∧
     rec.subjectCode = (row.map cleanCell).getD 0 "" ∧
     rec.subjectName = (row.map cleanCell).getD 1 "" ∧
     (rec.internalMark, rec.externalMark) =
       mergeFix ((row.map cleanCell).getD 2 "") ((row.map cleanCell).getD 3 "") ∧
     rec.totalMark = (row.map cleanCell).getD 4 "" ∧
     rec.result = (row.map cleanCell).getD 5 "") ∧
    (∀ extra : List (Option String), 6 ≤ row.length →
      processRow u n f (row ++ extra) = processRow u n f row) ∧
    (∀ t1 t2 : List (List (Option String)),
      extractTable u n f (t1 ++ t2) = extractTable u n f t1 ++ extractTable u n f t2) ∧
    (∀ p : Page, extractPage f p =
      (p.tables.map (extractTable (resolveUSN p.text) (resolveName p.text) f)).flatten) ∧
    (∀ p ps, extract_data_from_pdf f (p :: ps) =
      extractPage f p ++ extract_data_from_pdf f ps) := by
  obtain ⟨h1, h2, h3, h4, h5, h6, h7, h8⟩ := processRow_eq_some h
  refine ⟨⟨h1, h2, h8, h3, h4, h5, h6, h7⟩, ?_, ?_, ?_, ?_⟩
  · intro extra hlen
    have hg : ∀ i, i < 6 →
        ((row ++ extra).map cleanCell).getD i "" = (row.map cleanCell).getD i "" := by
      intro i hi
      rw [List.map_append]
      exact List.getD_append _ _ _ _ (by simp only [List.length_map]; omega)
    have hLa : 6 ≤ ((row ++ extra).map cleanCell).length := by
      simp only [List.length_map, List.length_append]; omega
    have hLb : 6 ≤ (row.map cleanCell).length := by
      simp only [List.length_map]; omega
    unfold processRow
    rw [hg 0 (by omega), hg 1 (by omega), hg 2 (by omega), hg 3 (by omega),
      hg 4 (by omega), hg 5 (by omega)]
    by_cases hq : reMatchSubjectCode ((row.map cleanCell).getD 0 "")
    · rw [if_pos ⟨hLa, hq⟩, if_pos ⟨hLb, hq⟩]
    · rw [if_neg (fun hc => hq hc.2), if_neg (fun hc => hq hc.2)]
  · intro t1 t2
    unfold extractTable
    exact List.filterMap_append t1 t2 (processRow u n f)
  · intro p
    rfl
  · intro p ps
    simp [extract_data_from_pdf]

/-- A qualifying row with seven cells (the seventh must be ignored) and an
embedded newline in the subject name. -/
def c3Row : List (Option String) :=
  [some "21CS45", some "OS\nLab", some "18", some "39", some "57", some "P", some "extra"]

/-- The record the code produces for `c3Row`. -/
def c3Rec : ResultRecord :=
  ⟨"1AB22CS001", "JANE", "21CS45", "OS Lab", "18", "39", "57", "P", "res.pdf"⟩

/-- Witness for C3's field mapping at a concrete row. -/
theorem record_fields_and_order_witness :
    c3Rec.usn = "1AB22CS001" ∧ c3Rec.studentName = "JANE" ∧
    c3Rec.sourceFile = "res.pdf" ∧
    c3Rec.subjectCode = (c3Row.map cleanCell).getD 0 "" ∧
    c3Rec.subjectName = (c3Row.map cleanCell).getD 1 "" ∧
    (c3Rec.internalMark, c3Rec.externalMark) =
      mergeFix ((c3Row.map cleanCell).getD 2 "") ((c3Row.map cleanCell).getD 3 "") ∧
    c3Rec.totalMark = (c3Row.map cleanCell).getD 4 "" ∧
    c3Rec.result = (c3Row.map cleanCell).getD 5 "" :=
  (record_fields_and_order "1AB22CS001" "JANE" "res.pdf" c3Row c3Rec (by decide)).1

/-- Claim C4: when the USN label phrase does not occur in the page text the
resolved USN is the sentinel "Unknown", symmetrically for the name label;
resolution is a total pure function of the text (it never raises), and both
resolved values are trimmed of leading/trailing whitespace (they are fixed
points of `pyStrip`). -/
theorem identity_sentinel_and_trimmed (t : String) :
    (containsLabel usnLabel t.toList = false → resolveUSN t = "Unknown") ∧
    (containsLabel nameLabel t.toList = false → resolveName t = "Unknown") ∧
    pyStrip (resolveUSN t) = resolveUSN t ∧
    pyStrip (resolveName t) = resolveName t := by
  refine ⟨fun h => ?_, fun h => ?_, ?_, ?_⟩
  · unfold resolveUSN resolveWith
    rw [reSearch_none _ _ _ h]
  · unfold resolveName resolveWith
    rw [reSearch_none _ _ _ h]
  · unfold resolveUSN resolveWith
    cases hs : reSearch usnLabel isUsnChar t.toList with
    | none => decide
    | some cap => exact pyStrip_idem ⟨cap⟩
  · unfold resolveName resolveWith
    cases hs : reSearch nameLabel isNameCapChar t.toList with
    | none => decide
    | some cap => exact pyStrip_idem ⟨cap⟩

/-- Witness for C4 on a page text with neither label. -/
theorem identity_sentinel_and_trimmed_witness :
    resolveUSN "no labels here" = "Unknown" ∧
    resolveName "no labels here" = "Unknown" :=
  ⟨(identity_sentinel_and_trimmed "no labels here").1 (by decide),
   (identity_sentinel_and_trimmed "no labels here").2.1 (by decide)⟩

/-- Claim C5, counterexample: the texts "USN:ABC123DE" and "USN - ABC123DE"
do NOT resolve to "ABC123DE" — the pattern's label is the full phrase
"University Seat Number", so both resolve to the sentinel "Unknown". -/
theorem usn_shorthand_cex :
    resolveUSN "USN:ABC123DE" = "Unknown" ∧
    resolveUSN "USN - ABC123DE" = "Unknown" := by
  decide

/-- Claim C5 (amended: the label must be the full phrase "University Seat
Number", not the shorthand "USN"): the separator variants
"University Seat Number:ABC123DE" and "University Seat Number - ABC123DE"
both resolve to the same captured value "ABC123DE". -/
theorem usn_separator_variants :
    resolveUSN "University Seat Number:ABC123DE" = "ABC123DE" ∧
    resolveUSN "University Seat Number - ABC123DE" = "ABC123DE" := by
  decide

/-- Claim C6: a document whose decoding fails contributes exactly zero
records, and removing it from the batch leaves the other documents' combined
output unchanged — the failure is caught per document (the `except` branch
returns `[]`) and never propagates. -/
theorem doc_failure_isolated (pre post : List (String × Except String (List Page)))
    (nm err : String) :
    extractDoc nm (Except.error err) = [] ∧
    processFiles (pre ++ (nm, Except.error err) :: post) =
      processFiles pre ++ processFiles post := by
  refine ⟨rfl, ?_⟩
  have h1 : pre ++ (nm, Except.error err) :: post =
      (pre ++ [(nm, Except.error err)]) ++ post := by simp
  rw [h1, processFiles_append, processFiles_append]
  have h2 : processFiles [(nm, Except.error err)] = ([] : List ResultRecord) := rfl
  rw [h2, List.append_nil]

/-- Claim C7: aggregation is ordered concatenation — `aggregate [[a,b],[c]]`
is `[a,b,c]`, and in general the aggregate equals the flat concatenation of
the batches in order, with no deduplication, sorting or reordering. -/
theorem aggregate_is_concat :
    (∀ a b c : ResultRecord, aggregate [[a, b], [c]] = [a, b, c]) ∧
    (∀ batches : List (List ResultRecord), aggregate batches = batches.flatten) :=
  ⟨fun _ _ _ => rfl, aggregate_flatten⟩

/-- Claim C8: identity is resolved per page with no cross-page state — the
records of a page inserted anywhere in a document are exactly
`extractPage` of that page alone (so other pages' texts cannot influence
them), and a page whose text lacks both labels yields records with
USN = Name = "Unknown" even if other pages of the document carry labels. -/
theorem page_identity_locality :
    (∀ (f : String) (xs ys : List Page) (p : Page),
      extract_data_from_pdf f (xs ++ p :: ys) =
        extract_data_from_pdf f xs ++ extractPage f p ++ extract_data_from_pdf f ys) ∧
    (∀ (f : String) (p : Page) (rec : ResultRecord),
      containsLabel usnLabel p.text.toList = false →
      containsLabel nameLabel p.text.toList = false →
      rec ∈ extractPage f p →
      rec.usn = "Unknown" ∧ rec.studentName = "Unknown") := by
  constructor
  · intro f xs ys p
    simp [extract_data_from_pdf, List.append_assoc]
  · intro f p rec hU hN hmem
    obtain ⟨h1, h2, -⟩ := extractPage_mem hmem
    constructor
    · rw [h1]
      unfold resolveUSN resolveWith
      rw [reSearch_none _ _ _ hU]
    · rw [h2]
      unfold resolveName resolveWith
      rw [reSearch_none _ _ _ hN]

/-- A page with a qualifying row but no identity labels in its text. -/
def c8Page : Page :=
  ⟨"Result table only",
   [[[some "BCS301", some "Maths", some "20", some "30", some "50", some "P"]]]⟩

/-- The record the code produces for the single row of `c8Page`. -/
def c8Rec : ResultRecord :=
  ⟨"Unknown", "Unknown", "BCS301", "Maths", "20", "30", "50", "P", "f.pdf"⟩

/-- Witness for C8: the label-free page's record carries the sentinels. -/
theorem page_identity_locality_witness :
    c8Rec.usn = "Unknown" ∧ c8Rec.studentName = "Unknown" :=
  page_identity_locality.2 "f.pdf" c8Page c8Rec (by decide) (by decide) (by decide)

/-- Claim C9: the subjectCode of a produced record is the entire normalized
first cell verbatim, including any characters after the qualifying 5+
character alphanumeric prefix. -/
theorem subjectCode_verbatim (u n f : String) (row : List (Option String))
    (rec : ResultRecord) (h : processRow u n f row = some rec) :
    rec.subjectCode = (row.map cleanCell).getD 0 "" :=
  (processRow_eq_some h).2.2.1

/-- A qualifying row whose first cell has trailing non-alphanumeric text. -/
def c9Row : List (Option String) :=
  [some "BMATE201-X (old)", some "Maths", some "25", some "40", some "65", some "P"]

/-- The record the code produces for `c9Row`. -/
def c9Rec : ResultRecord :=
  ⟨"U9", "N9", "BMATE201-X (old)", "Maths", "25", "40", "65", "P", "F9"⟩

/-- Witness for C9: the trailing "-X (old)" is kept in subjectCode. -/
theorem subjectCode_verbatim_witness :
    c9Rec.subjectCode = (c9Row.map cleanCell).getD 0 "" :=
  subjectCode_verbatim "U9" "N9" "F9" c9Row c9Rec (by decide)

/-- Claim C10: when the label phrase occurs several times in a page text, the
value is captured at the leftmost occurrence: if no occurrence of the label
lies strictly before position `|a|` (not even straddling it) and the pattern
matches at the start of `rest`, then searching `a ++ rest` yields exactly
that match's capture — whatever later occurrences `rest` still contains.
Stated for the USN pattern and the name pattern. -/
theorem identity_leftmost_occurrence
    (a rest cap a2 rest2 cap2 : List Char)
    (hU1 : containsLabel usnLabel (a ++ rest.take (usnLabel.length - 1)) = false)
    (hU2 : matchAt usnLabel isUsnChar rest = some cap)
    (hN1 : containsLabel nameLabel (a2 ++ rest2.take (nameLabel.length - 1)) = false)
    (hN2 : matchAt nameLabel isNameCapChar rest2 = some cap2) :
    resolveUSN ⟨a ++ rest⟩ = pyStrip ⟨cap⟩ ∧
    resolveName ⟨a2 ++ rest2⟩ = pyStrip ⟨cap2⟩ := by
  constructor
  · unfold resolveUSN resolveWith
    have ht : (String.mk (a ++ rest)).toList = a ++ rest := rfl
    rw [ht, search_skip _ _ _ _ hU1, reSearch_of_matchAt _ _ _ _ hU2]
  · unfold resolveName resolveWith
    have ht : (String.mk (a2 ++ rest2)).toList = a2 ++ rest2 := rfl
    rw [ht, search_skip _ _ _ _ hN1, reSearch_of_matchAt _ _ _ _ hN2]

/-- Text before the first USN label occurrence. -/
def c10aU : List Char := "The USN field: ".toList

/-- A tail holding two USN label occurrences. -/
def c10restU : List Char :=
  "University Seat Number: 1AB22CS001 University Seat Number: 9XX99XX999".toList

/-- The capture at the first USN occurrence. -/
def c10capU : List Char := "1AB22CS001".toList

/-- Text before the first name label occurrence. -/
def c10aN : List Char := "Name? ".toList

/-- A tail holding two name label occurrences. -/
def c10restN : List Char :=
  "Student Name: Jane Roe; Student Name: Imposter".toList

/-- The capture at the first name occurrence. -/
def c10capN : List Char := "Jane Roe".toList

/-- Witness for C10 on texts with two occurrences of each label. -/
theorem identity_leftmost_occurrence_witness :
    resolveUSN ⟨c10aU ++ c10restU⟩ = pyStrip ⟨c10capU⟩ ∧
    resolveName ⟨c10aN ++ c10restN⟩ = pyStrip ⟨c10capN⟩ :=
  identity_leftmost_occurrence c10aU c10restU c10capU c10aN c10restN c10capN
    (by decide) (by decide) (by decide) (by decide)

end ResultExtractor
